import Mathlib

/-!
Verification of the financial time-series assembly pipeline in
`Projects/Predict_hpi/predict/data.py` (with the key registry
`Projects/Predict_hpi/predict/data_keys.py`).

Shallow embedding conventions:
* calendar dates / timestamps are encoded as natural numbers via the
  standard civil-calendar day count (`daysFromCivil`);
* a loaded time series is a date-sorted association list `List (Nat × Rat)`;
  pandas `NaN` cells are modelled with `Option Rat` (`none` = NaN);
* a pandas `DataFrame` is a `Frame`: a shared date index plus named
  columns of `Option Rat` values;
* fallible Python code is modelled in `Except PyErr`;
* Python name resolution of the column-key constants imported by
  `from data_keys import *` is modelled by `lookupName`, looking the
  identifier up in the constants actually assigned in `data_keys.py`
  (an absent identifier is a Python `NameError` at use time).
-/

/-- Python exceptions that the data module can raise. -/
inductive PyErr where
  | fileNotFound (path : String)
  | parseError
  | nameError (name : String)
  | keyError (key : String)
  | indexError
  | valueErrorNoObjects
  | assertionError (msg : String)
  | typeError
deriving DecidableEq, Repr

/-- Split a list of characters on a separator character, like
`str.split(sep)` / the field splitting done by `pandas.read_csv`. -/
def splitOnChar (c : Char) : List Char → List (List Char)
  | [] => [[]]
  | x :: xs =>
    let r := splitOnChar c xs
    if x = c then [] :: r
    else
      match r with
      | [] => [[x]]
      | y :: ys => (x :: y) :: ys

/-- Parse a nonempty all-digit character list as a natural number. -/
def parseNatChars (l : List Char) : Option Nat :=
  if l ≠ [] ∧ l.all Char.isDigit then
    some (l.foldl (fun acc c => acc * 10 + (c.toNat - 48)) 0)
  else none

/-- Parse an unsigned decimal literal (`"12"`, `"12.5"`) as a rational. -/
def parseUnsignedDec (l : List Char) : Option Rat :=
  match splitOnChar '.' l with
  | [ip] => (parseNatChars ip).map (fun n => (n : Rat))
  | [ip, fp] => do
    let i ← parseNatChars ip
    let f ← parseNatChars fp
    pure ((i : Rat) + (f : Rat) / (10 : Rat) ^ fp.length)
  | _ => none

/-- Parse a (possibly negative) decimal literal as a rational,
as pandas parses a numeric CSV cell. -/
def parseDecimalChars (l : List Char) : Option Rat :=
  match l with
  | '-' :: rest => (parseUnsignedDec rest).map Neg.neg
  | _ => parseUnsignedDec l

/-- Day count of a civil calendar date (Gregorian), the standard
`days_from_civil` algorithm; a strictly monotone encoding of dates into
naturals that moves by exactly one per calendar day (this is how a pandas
`Timestamp` at day granularity is modelled). -/
def daysFromCivil (y m d : Nat) : Nat :=
  let y' := if m ≤ 2 then y - 1 else y
  let era := y' / 400
  let yoe := y' % 400
  let mp := if 2 < m then m - 3 else m + 9
  let doy := (153 * mp + 2) / 5 + (d - 1)
  let doe := yoe * 365 + yoe / 4 - yoe / 100 + doy
  era * 146097 + doe

/-- Parse a date in `MM/DD/YYYY` format (the fundamental-data files). -/
def parseDateMDY (s : String) : Option Nat :=
  match splitOnChar '/' s.toList with
  | [ms, ds, ys] => do
    let m ← parseNatChars ms
    let d ← parseNatChars ds
    let y ← parseNatChars ys
    if 1 ≤ m ∧ m ≤ 12 ∧ 1 ≤ d ∧ d ≤ 31 ∧ 1 ≤ y then pure (daysFromCivil y m d)
    else none
  | _ => none

/-- Parse a date in ISO `YYYY-MM-DD` format (the Yahoo price files). -/
def parseDateISO (s : String) : Option Nat :=
  match splitOnChar '-' s.toList with
  | [ys, ms, ds] => do
    let y ← parseNatChars ys
    let m ← parseNatChars ms
    let d ← parseNatChars ds
    if 1 ≤ m ∧ m ≤ 12 ∧ 1 ≤ d ∧ d ≤ 31 ∧ 1 ≤ y then pure (daysFromCivil y m d)
    else none
  | _ => none

/-- The constants actually assigned in this repository's
`Projects/Predict_hpi/predict/data_keys.py`, in source order, with their
string values.  These are the only names `from data_keys import *`
brings into scope in `data.py`. -/
def data_keys_defs : List (String × String) :=
  [ ( "DATE", "Date" ),
    ( "DATE_TIME", "Date and Time" ),
    ( "HP", "HP" ),
    ( "RATIO_EXACT", "Dollar / Earnings" ),
    ( "HPI", "HPI" ),
    ( "HPI_REAL", "HPI (Real)" ),
    ( "EARNINGS", "Earnings" ),
    ( "EARNINGS_REAL", "Earnings (Real)" ),
    ( "EARNINGS_GROWTH", "Earnings Growth" ),
    ( "EARNINGS_GROWTH_REAL", "Earnings Growth (Real)" ),
    ( "RATIO", "HPI/Earnings" ),
    ( "RATIO_MF", "MF x HPI/Earnings" ),
    ( "ANN_RETURN", "Ann. Return" ),
    ( "ANN_RETURN_REAL", "Ann. Return (Real)" ),
    ( "MORTGAGE_RATE", "Mortgage Rate 30-Year" ),
    ( "MORTGAGE_FACTOR", "Mortgage Factor" ),
    ( "MEAN_ANN_RETURN", "Mean Ann. Return" ),
    ( "STD_ANN_RETURN", "Std. Ann. Return" ),
    ( "BOND_YIELD", "Bond Yield" ),
    ( "CPI", "CPI" ) ]

/-- The names defined by the key-registry module. -/
def data_keys_names : List String := data_keys_defs.map Prod.fst

/-- Resolution of a column-key identifier used in `data.py`: the value of
the constant if `data_keys.py` defines it, otherwise a Python
`NameError` raised at the point of use. -/
def lookupName (n : String) : Except PyErr String :=
  match data_keys_defs.lookup n with
  | some v => Except.ok v
  | none => Except.error (PyErr.nameError n)

/-! ## Time series and the Daily Resampler (`_resample_daily`)

`data.resample('D').interpolate(method='linear')`: reindex the series onto
the continuous daily calendar spanning its index, then fill the missing
values by positional linear interpolation (pandas `method='linear'`
interpolates by position; after daily reindexing, positions coincide with
calendar days).  Pandas keeps leading NaNs, linearly interpolates interior
NaNs, and pads trailing NaNs forward (default `limit_direction='forward'`).
-/

/-- A loaded time series: date-sorted `(day, value)` rows. -/
abbrev Series := List (Nat × Rat)

/-- A time series with possibly-missing (NaN) values. -/
abbrev OSeries := List (Nat × Option Rat)

/-- View an all-known series as a NaN-free `OSeries`. -/
def toOptSeries (s : Series) : OSeries := s.map (fun p => (p.1, some p.2))

/-- Date of the last row of an index (`index[-1]`); `0` for an empty index. -/
def lastD : List Nat → Nat
  | [] => 0
  | [d] => d
  | _ :: d :: rest => lastD (d :: rest)

/-- The continuous daily calendar spanned by a date index:
all days from `index[0]` to `index[-1]` inclusive. -/
def daily_grid (index : List Nat) : List Nat :=
  match index with
  | [] => []
  | d0 :: _ => (List.range (lastD index + 1 - d0)).map (fun k => d0 + k)

/-- Greatest position `i ≤ k` holding a known value, with that value. -/
def prevKnown (vals : List (Option Rat)) : Nat → Option (Nat × Rat)
  | 0 =>
    match vals.getD 0 none with
    | some v => some (0, v)
    | none => none
  | k + 1 =>
    match vals.getD (k + 1) none with
    | some v => some (k + 1, v)
    | none => prevKnown vals k

/-- Fuel-driven scan upwards from position `k` for the next known value;
the fuel is the number of positions left to inspect. -/
def nextKnownAux (vals : List (Option Rat)) : Nat → Nat → Option (Nat × Rat)
  | 0, _ => none
  | fuel + 1, k =>
    match vals.getD k none with
    | some v => some (k, v)
    | none => nextKnownAux vals fuel (k + 1)

/-- Least position `j ≥ k` holding a known value, with that value. -/
def nextKnown (vals : List (Option Rat)) (k : Nat) : Option (Nat × Rat) :=
  nextKnownAux vals (vals.length - k) k

/-- Value at position `k` after pandas linear interpolation: known values
are kept; a missing value strictly between two known ones is linearly
interpolated by position; missing values after the last known one are
padded forward; missing values before the first known one stay missing. -/
def interpValue (vals : List (Option Rat)) (k : Nat) : Option Rat :=
  match prevKnown vals k, nextKnown vals k with
  | some (i, vi), some (j, vj) =>
    if j = i then some vi
    else some (vi + (vj - vi) * (((k : Rat) - (i : Rat)) / ((j : Rat) - (i : Rat))))
  | some (_, vi), none => some vi
  | none, _ => none

/-- Pandas `Series.interpolate(method='linear')` on a column of values. -/
def interpolate_linear (vals : List (Option Rat)) : List (Option Rat) :=
  (List.range vals.length).map (interpValue vals)

/-- The column of raw values of a series on the daily calendar:
the stored value where the day is present in the index, NaN otherwise. -/
def gridVals (pts : OSeries) (grid : List Nat) : List (Option Rat) :=
  grid.map (fun d => (pts.lookup d).join)

/-- `series.resample('D').interpolate(method='linear')` for a series with
possibly-missing values. -/
def resample_daily_core (pts : OSeries) : OSeries :=
  let grid := daily_grid (pts.map Prod.fst)
  grid.zip (interpolate_linear (gridVals pts grid))

/-- `_resample_daily` from `data.py`, applied to a fully-known loaded
series. -/
def _resample_daily (pts : Series) : OSeries :=
  resample_daily_core (toOptSeries pts)

/-! ## DataFrames, file loaders and enrichers

A pandas `DataFrame` is a shared date index plus named value columns.
The filesystem is modelled as an association list from paths to the list
of text lines of the file.  In-place mutation of the combined table by
the enrichers is modelled by returning the updated frame.
-/

/-- A pandas DataFrame: a date index and named columns of values. -/
structure Frame where
  index : List Nat
  cols : List (String × List (Option Rat))
deriving DecidableEq

/-- Decidable equality of `Except` results, for evaluating the model on
concrete inputs. -/
instance {ε α : Type} [DecidableEq ε] [DecidableEq α] : DecidableEq (Except ε α) :=
  fun a b =>
  match a, b with
  | Except.ok x, Except.ok y =>
    if h : x = y then isTrue (h ▸ rfl) else isFalse (fun hc => h (Except.ok.inj hc))
  | Except.error e, Except.error f =>
    if h : e = f then isTrue (h ▸ rfl) else isFalse (fun hc => h (Except.error.inj hc))
  | Except.ok _, Except.error _ => isFalse (fun hc => Except.noConfusion hc)
  | Except.error _, Except.ok _ => isFalse (fun hc => Except.noConfusion hc)

/-- The filesystem: path → lines of the file. -/
abbrev FS := List (String × List String)

/-- `data_dir` from `data.py`. -/
def data_dir : String := "data/"

/-- `data_dir_intraday` from `data.py` (`os.path.join(data_dir, 'intraday/')`). -/
def data_dir_intraday : String := data_dir ++ "intraday/"

/-- Build a string back from a character list. -/
def strOfChars (l : List Char) : String := String.mk l

/-- Parse every element, failing if any element fails (the `Option`
traversal of a list, written out structurally). -/
def mapO {α β : Type} (f : α → Option β) : List α → Option (List β)
  | [] => some []
  | a :: t =>
    match f a with
    | none => none
    | some b => (mapO f t).map (fun bs => b :: bs)

/-- Run a fallible step on every element, raising the first error (the
`Except` traversal of a list, written out structurally). -/
def mapE {α β : Type} (f : α → Except PyErr β) : List α → Except PyErr (List β)
  | [] => Except.ok []
  | a :: t =>
    match f a with
    | Except.error e => Except.error e
    | Except.ok b =>
      match mapE f t with
      | Except.error e => Except.error e
      | Except.ok bs => Except.ok (b :: bs)

/-- The frame returned by `pd.read_csv(sep='\t', index_col=0,
parse_dates=True)`: either a date-indexed numeric frame (`clean`, when
every index cell parses as a date and every non-empty value cell as a
number; short rows are NaN-padded), or a frame whose index or value
column kept unparsed cells as Python objects (`object`) — returned
without any error being raised. -/
inductive TabFrame where
  | clean (colName : String) (rows : List (Nat × Option Rat))
  | object (colName : String) (rawRows : List (String × String))
deriving DecidableEq

/-- Name of the single value column of a loaded tab-separated frame. -/
def TabFrame.colName : TabFrame → String
  | TabFrame.clean n _ => n
  | TabFrame.object n _ => n

/-- A value cell of a tab-separated file: a missing or empty cell is NaN
(pandas pads short rows); a non-empty cell is numeric if it parses. -/
def parseValCell (c : List Char) : Option (Option Rat) :=
  if c = [] then some none else (parseDecimalChars c).map some

/-- Dtype inference of the reader on the accepted rows (each row a list
of fields): if every index cell parses as a date and every non-empty
value cell as a number, the frame is clean; otherwise the cells stay as
objects. -/
def buildTabFrame (colName : String) (cells : List (List (List Char))) : TabFrame :=
  match mapO (fun c => parseDateMDY (strOfChars (c.getD 0 []))) cells,
        mapO (fun c => parseValCell (c.getD 1 [])) cells with
  | some dates, some vs => TabFrame.clean colName (dates.zip vs)
  | _, _ =>
    TabFrame.object colName
      (cells.map (fun c => (strOfChars (c.getD 0 []), strOfChars (c.getD 1 []))))

/-- `_load_data` from `data.py`, i.e. bare
`pd.read_csv(path, sep='\t', index_col=0, parse_dates=True)`.
A missing file raises `FileNotFoundError` and an empty file raises
pandas' `EmptyDataError`; the only malformed *row* the reader rejects is
one with more fields than the header (`ParserError: Expected N fields`).
Every other row is accepted silently: short rows are NaN-padded, an
index cell that does not parse as a date leaves the index as object
dtype, and a non-empty value cell that is not numeric leaves the value
column as object dtype — no error is raised at load time for those. -/
def _load_data (fs : FS) (path : String) : Except PyErr TabFrame :=
  match fs.lookup path with
  | none => Except.error (PyErr.fileNotFound path)
  | some [] => Except.error PyErr.parseError
  | some (header :: rows) =>
    let hcells := splitOnChar '\t' header.toList
    let cells := rows.map (fun line => splitOnChar '\t' line.toList)
    if cells.any (fun c => hcells.length < c.length) then
      Except.error PyErr.parseError
    else Except.ok (buildTabFrame (strOfChars (hcells.getD 1 [])) cells)

/-- `_resample_daily` applied to the result of `_load_data`
(`data.resample('D').interpolate(method='linear')`): on an object-dtype
frame pandas raises `TypeError` inside `_resample_daily` (`resample('D')`
requires a `DatetimeIndex`; `interpolate` rejects object-dtype values);
a clean frame is interpolated onto the daily calendar. -/
def resample_loaded : TabFrame → Except PyErr OSeries
  | TabFrame.clean _ rows => Except.ok (resample_daily_core rows)
  | TabFrame.object _ _ => Except.error PyErr.typeError

/-- Parse one row of a Yahoo CSV file: ISO date in the first field, then
one cell per named column (an empty cell is NaN). -/
def parseYahooRow (nCols : Nat) (line : String) : Option (Nat × List (Option Rat)) :=
  match splitOnChar ',' line.toList with
  | [] => none
  | dateCell :: valCells =>
    if valCells.length = nCols then do
      let d ← parseDateISO (strOfChars dateCell)
      let vs ← mapO (fun c => if c = [] then some none else (parseDecimalChars c).map some) valCells
      pure (d, vs)
    else none

/-- `pd.read_csv(path, index_col=0, header=0, sep=',', parse_dates=[0])`
as used on the Yahoo price files. -/
def read_csv_yahoo (fs : FS) (path : String) : Except PyErr Frame :=
  match fs.lookup path with
  | none => Except.error (PyErr.fileNotFound path)
  | some [] => Except.error PyErr.parseError
  | some (header :: rows) =>
    let colNames := ((splitOnChar ',' header.toList).drop 1).map strOfChars
    match mapO (parseYahooRow colNames.length) rows with
    | none => Except.error PyErr.parseError
    | some prs =>
      Except.ok
        { index := prs.map Prod.fst,
          cols := colNames.mapIdx (fun i name => (name, prs.map (fun r => r.2.getD i none))) }

/-- `df.rename(columns=m)`: rename the columns that appear in the map. -/
def renameCols (df : Frame) (m : List (String × String)) : Frame :=
  { df with
    cols := df.cols.map (fun p =>
      match m.lookup p.1 with
      | some n => (n, p.2)
      | none => p) }

/-- `df[[k1, k2, ...]]`: select the named columns in order; a missing
column is a `KeyError`. -/
def selectCols (df : Frame) (ks : List String) : Except PyErr Frame :=
  match ks.find? (fun k => (df.cols.lookup k).isNone) with
  | some k => Except.error (PyErr.keyError k)
  | none =>
    Except.ok
      { df with cols := ks.filterMap (fun k => (df.cols.lookup k).map (fun vs => (k, vs))) }

/-- `_resample_daily` applied to a whole DataFrame: every column is
interpolated onto the daily calendar spanned by the frame's index. -/
def resample_daily_frame (df : Frame) : Frame :=
  let grid := daily_grid df.index
  { index := grid,
    cols := df.cols.map (fun p => (p.1, interpolate_linear (gridVals (df.index.zip p.2) grid))) }

/-- `_load_price_yahoo` from `data.py`: read the Yahoo CSV, rename
`'Adj Close'`/`'Close'` to the registry keys `TOTAL_RETURN`/`SHARE_PRICE`
(the dict literal evaluates `TOTAL_RETURN` first), select those two
columns, and resample daily. -/
def _load_price_yahoo (fs : FS) (ticker : String) : Except PyErr Frame := do
  let path := data_dir ++ ticker ++ " Share-Price (Yahoo).csv"
  let price_raw ← read_csv_yahoo fs path
  let trKey ← lookupName "TOTAL_RETURN"
  let spKey ← lookupName "SHARE_PRICE"
  let price := renameCols price_raw [( "Adj Close", trKey), ( "Close", spKey)]
  let price ← selectCols price [trKey, spKey]
  pure (resample_daily_frame price)

/-- `df[k] = vs`: overwrite the column if present, else append it. -/
def setCol (df : Frame) (k : String) (vs : List (Option Rat)) : Frame :=
  if (df.cols.lookup k).isSome then
    { df with cols := df.cols.map (fun p => if p.1 = k then (k, vs) else p) }
  else { df with cols := df.cols ++ [(k, vs)] }

/-- `df[k]`: read a column; a missing column is a `KeyError`. -/
def getCol (df : Frame) (k : String) : Except PyErr (List (Option Rat)) :=
  match df.cols.lookup k with
  | some vs => Except.ok vs
  | none => Except.error (PyErr.keyError k)

/-- Align a daily series onto a frame's index (pandas alignment on
assignment): the series value at each index date, NaN if absent. -/
def reindex_vals (index : List Nat) (daily : OSeries) : List (Option Rat) :=
  index.map (fun d => (daily.lookup d).join)

/-- Elementwise division of two columns (NaN propagates). -/
def div_vals (a b : List (Option Rat)) : List (Option Rat) :=
  a.zipWith (fun x y => do
    let xv ← x
    let yv ← y
    pure (xv / yv)) b

/-- `series.pct_change(periods=365)` on a column. -/
def pct_change_365 (vals : List (Option Rat)) : List (Option Rat) :=
  (List.range vals.length).map (fun i =>
    if i < 365 then none
    else do
      let a ← vals.getD (i - 365) none
      let b ← vals.getD i none
      pure ((b - a) / a))

/-- `df.dropna(subset=[k], inplace=True)`: keep only the rows where
column `k` is defined. -/
def dropna_subset (df : Frame) (k : String) : Except PyErr Frame := do
  let vs ← getCol df k
  let keep := (List.range df.index.length).filter (fun i => (vs.getD i none).isSome)
  pure
    { index := keep.map (fun i => df.index.getD i 0),
      cols := df.cols.map (fun p => (p.1, keep.map (fun i => p.2.getD i none))) }

/-- `_load_sales_per_share` from `data.py`: load the file, attach the
daily series under `SALES_PER_SHARE`, add `PSALES` and `SALES_GROWTH`.
Each statement resolves its key constants at the point of use. -/
def _load_sales_per_share (fs : FS) (ticker : String) (df : Frame) : Except PyErr Frame := do
  let path := data_dir ++ ticker ++ " Sales Per Share.txt"
  let sales_per_share ← _load_data fs path
  let daily ← resample_loaded sales_per_share
  let spsKey ← lookupName "SALES_PER_SHARE"
  let df := setCol df spsKey (reindex_vals df.index daily)
  let priceKey ← lookupName "SHARE_PRICE"
  let spsKey2 ← lookupName "SALES_PER_SHARE"
  let num ← getCol df priceKey
  let den ← getCol df spsKey2
  let psKey ← lookupName "PSALES"
  let df := setCol df psKey (div_vals num den)
  let spsKey3 ← lookupName "SALES_PER_SHARE"
  let salesCol ← getCol df spsKey3
  let sgKey ← lookupName "SALES_GROWTH"
  pure (setCol df sgKey (pct_change_365 salesCol))

/-- `_load_earnings_per_share` from `data.py`: load the file, attach the
daily series under `EARNINGS_PER_SHARE`, add `PE`, and optionally
`PROFIT_MARGIN = EARNINGS_PER_SHARE / SALES_PER_SHARE`. -/
def _load_earnings_per_share (fs : FS) (ticker : String) (df : Frame)
    (profit_margin : Bool) : Except PyErr Frame := do
  let path := data_dir ++ ticker ++ " Earnings Per Share.txt"
  let earnings_per_share ← _load_data fs path
  let daily ← resample_loaded earnings_per_share
  let epsKey ← lookupName "EARNINGS_PER_SHARE"
  let df := setCol df epsKey (reindex_vals df.index daily)
  let priceKey ← lookupName "SHARE_PRICE"
  let epsKey2 ← lookupName "EARNINGS_PER_SHARE"
  let num ← getCol df priceKey
  let den ← getCol df epsKey2
  let peKey ← lookupName "PE"
  let df := setCol df peKey (div_vals num den)
  if profit_margin then do
    let epsKey3 ← lookupName "EARNINGS_PER_SHARE"
    let spsKey ← lookupName "SALES_PER_SHARE"
    let num2 ← getCol df epsKey3
    let den2 ← getCol df spsKey
    let pmKey ← lookupName "PROFIT_MARGIN"
    pure (setCol df pmKey (div_vals num2 den2))
  else pure df

/-- `_load_book_value_per_share` from `data.py`. -/
def _load_book_value_per_share (fs : FS) (ticker : String) (df : Frame) :
    Except PyErr Frame := do
  let path := data_dir ++ ticker ++ " Book-Value Per Share.txt"
  let book_value_per_share ← _load_data fs path
  let daily ← resample_loaded book_value_per_share
  let bvKey ← lookupName "BOOK_VALUE_PER_SHARE"
  let df := setCol df bvKey (reindex_vals df.index daily)
  let priceKey ← lookupName "SHARE_PRICE"
  let bvKey2 ← lookupName "BOOK_VALUE_PER_SHARE"
  let num ← getCol df priceKey
  let den ← getCol df bvKey2
  let pbKey ← lookupName "PBOOK"
  pure (setCol df pbKey (div_vals num den))

/-- `_load_dividend_TTM` from `data.py`. -/
def _load_dividend_TTM (fs : FS) (ticker : String) (df : Frame) :
    Except PyErr Frame := do
  let path := data_dir ++ ticker ++ " Dividend Per Share TTM.txt"
  let dividend_per_share_TTM ← _load_data fs path
  let daily ← resample_loaded dividend_per_share_TTM
  let dtKey ← lookupName "DIVIDEND_TTM"
  let df := setCol df dtKey (reindex_vals df.index daily)
  let priceKey ← lookupName "SHARE_PRICE"
  let dtKey2 ← lookupName "DIVIDEND_TTM"
  let num ← getCol df priceKey
  let den ← getCol df dtKey2
  let pdKey ← lookupName "PDIVIDEND"
  let df := setCol df pdKey (div_vals num den)
  let dtKey3 ← lookupName "DIVIDEND_TTM"
  let priceKey2 ← lookupName "SHARE_PRICE"
  let num2 ← getCol df dtKey3
  let den2 ← getCol df priceKey2
  let dyKey ← lookupName "DIVIDEND_YIELD"
  pure (setCol df dyKey (div_vals num2 den2))

/-! ## Assemblers -/

/-- The names bound at module level in `data.py`: the imports
(`import pandas as pd`, `numpy as np`, `time`, `os`, `requests`), the
star-import from `data_keys`, and the module's own globals.  Notably the
module `returns` is never imported. -/
def module_globals : List String :=
  data_keys_names ++
  [ "pd", "np", "time", "os", "requests",
    "data_dir", "data_dir_intraday",
    "_resample_daily", "_load_data", "_load_price_yahoo",
    "_load_earnings_per_share", "_load_sales_per_share",
    "_load_book_value_per_share", "_load_dividend_TTM",
    "load_usa_cpi", "load_usa_gov_bond_1year",
    "load_index_data", "load_stock_data", "common_period",
    "_api_key_av", "set_api_key_av", "load_api_key_av",
    "_path_shareprices_intraday", "download_shareprices_intraday",
    "load_shareprices_intraday" ]

/-- Resolution of a module-level (non-key) global name in `data.py`. -/
def resolve_global (n : String) : Except PyErr Unit :=
  if n ∈ module_globals then Except.ok () else Except.error (PyErr.nameError n)

/-- Sorted insertion of a date into a sorted date index (no duplicates). -/
def sortedInsert (d : Nat) : List Nat → List Nat
  | [] => [d]
  | x :: xs =>
    if d < x then d :: x :: xs
    else if d = x then x :: xs
    else x :: sortedInsert d xs

/-- Sorted union of two date indices. -/
def sortedUnion (l1 l2 : List Nat) : List Nat :=
  l2.foldl (fun acc d => sortedInsert d acc) l1

/-- `pd.concat([df, s], axis=1)`: outer join of the price frame with the
loaded dividend frame.  For a clean (date-indexed) dividend frame this
is the union of the date indices.  The rows of an object-indexed
dividend frame never align with the price frame's `DatetimeIndex`: at
the price dates the dividend column is all-NaN, and the extra
object-index rows (which carry no share price) are exactly the rows the
immediately following `dropna(subset=[SHARE_PRICE])` in `load_index_data`
removes, so the embedding keeps the date rows only. -/
def concat_axis1 (df : Frame) (t : TabFrame) : Frame :=
  match t with
  | TabFrame.clean name s =>
    let idx := sortedUnion df.index (s.map Prod.fst)
    { index := idx,
      cols := df.cols.map (fun p => (p.1, reindex_vals idx (df.index.zip p.2)))
              ++ [(name, idx.map (fun d => (s.lookup d).join))] }
  | TabFrame.object name _ =>
    { df with cols := df.cols ++ [(name, df.index.map (fun _ => none))] }

/-- Modelled from the spec: the helper `returns.total_return` called at
`data.py` line 346 is not part of this repository (no `returns` module
exists in the source tree and `data.py` never imports one).  The spec
describes it as the cumulative compounding of price appreciation plus
reinvested dividends: starting from the first defined price, each later
step multiplies the running total return by
`(price + dividend paid that day) / previous price`, the dividend cell
being NaN (treated as 0) except at the quarterly payment dates. -/
def totretGo (prevP prevTR : Rat) : List (Option Rat × Option Rat) → List (Option Rat)
  | [] => []
  | (none, _) :: rest => none :: totretGo prevP prevTR rest
  | (some pv, dv) :: rest =>
    let tr := prevTR * ((pv + dv.getD 0) / prevP)
    some tr :: totretGo pv tr rest

/-- Modelled from the spec: skip leading undefined prices, then seed the
total-return series with the first defined price. -/
def totretStart : List (Option Rat × Option Rat) → List (Option Rat)
  | [] => []
  | (none, _) :: rest => none :: totretStart rest
  | (some p0, _) :: rest => some p0 :: totretGo p0 p0 rest

/-- Modelled from the spec: entry point of the total-return scan, see
`totretGo`.  Rows before the first defined price stay NaN. -/
def total_return (price dividend : List (Option Rat)) : List (Option Rat) :=
  totretStart (price.zip dividend)

/-- `load_index_data` from `data.py`: load the Yahoo price frame, load
the raw dividend file, outer-concat them, drop rows with undefined
`SHARE_PRICE`, compute `TOTAL_RETURN` via the (missing) `returns` module,
then run the optional enrichers. -/
def load_index_data (fs : FS) (ticker : String)
    (sales book_value dividend_TTM : Bool) : Except PyErr Frame := do
  let price_daily ← _load_price_yahoo fs ticker
  let dividend_per_share ← _load_data fs (data_dir ++ ticker ++ " Dividend Per Share.txt")
  let df := concat_axis1 price_daily dividend_per_share
  let spKey ← lookupName "SHARE_PRICE"
  let df ← dropna_subset df spKey
  let _ ← resolve_global "returns"
  let price ← getCol df spKey
  let divCol := (df.cols.lookup dividend_per_share.colName).getD []
  let trKey ← lookupName "TOTAL_RETURN"
  let df := setCol df trKey (total_return price divCol)
  let df ← if sales then _load_sales_per_share fs ticker df else pure df
  let df ← if book_value then _load_book_value_per_share fs ticker df else pure df
  let df ← if dividend_TTM then _load_dividend_TTM fs ticker df else pure df
  pure df

/-- `load_stock_data` from `data.py`: the price frame is the combined
table; drop undefined-price rows, then run the optional enrichers in
order sales, earnings, book-value, dividend-TTM. -/
def load_stock_data (fs : FS) (ticker : String)
    (earnings sales book_value dividend_TTM : Bool) : Except PyErr Frame := do
  let price_daily ← _load_price_yahoo fs ticker
  let df := price_daily
  let spKey ← lookupName "SHARE_PRICE"
  let df ← dropna_subset df spKey
  let df ← if sales then _load_sales_per_share fs ticker df else pure df
  let df ← if earnings then _load_earnings_per_share fs ticker df true else pure df
  let df ← if book_value then _load_book_value_per_share fs ticker df else pure df
  let df ← if dividend_TTM then _load_dividend_TTM fs ticker df else pure df
  pure df

/-- `df.index[0]` on a date index (an empty index is an `IndexError`). -/
def np_start (df : List Nat) : Except PyErr Nat :=
  match df.head? with
  | some d => Except.ok d
  | none => Except.error PyErr.indexError

/-- `df.index[-1]` on a date index (an empty index is an `IndexError`). -/
def np_end (df : List Nat) : Except PyErr Nat :=
  match df.getLast? with
  | some d => Except.ok d
  | none => Except.error PyErr.indexError

/-- `common_period` from `data.py`, acting on the date indices of the
given frames: collect every `df.index[0]` and `df.index[-1]`, and return
`np.max(start_dates), np.min(end_dates)` (`np.max` of an empty list is a
`ValueError`). -/
def common_period (dfs : List (List Nat)) : Except PyErr (Nat × Nat) := do
  let start_dates ← mapE np_start dfs
  let end_dates ← mapE np_end dfs
  match start_dates, end_dates with
  | s :: ss, e :: es => pure (ss.foldl max s, es.foldl min e)
  | _, _ => Except.error PyErr.valueErrorNoObjects

/-! ## Alpha Vantage: API key, intraday download and load -/

/-- The module-level `_api_key_av` state. -/
structure AVState where
  api_key : Option String
deriving DecidableEq

/-- The state at module import: `_api_key_av = None`. -/
def av_module_initial : AVState := { api_key := none }

/-- `set_api_key_av` from `data.py` (a Python caller may pass `None`). -/
def set_api_key_av (api_key : Option String) (_st : AVState) : AVState :=
  { api_key := api_key }

/-- `load_api_key_av` from `data.py`: read the first line of the key
file, strip it, and store it via `set_api_key_av`. -/
def load_api_key_av (fs : FS) (path : String) (st : AVState) : Except PyErr AVState :=
  match fs.lookup path with
  | none => Except.error (PyErr.fileNotFound path)
  | some lines => Except.ok (set_api_key_av (some ((lines.headD "").trim)) st)

/-- `_path_shareprices_intraday` from `data.py`. -/
def _path_shareprices_intraday (ticker interval : String) : String :=
  data_dir_intraday ++ ticker ++ " Share-Price Intraday " ++ interval ++ " (AlphaVantage).csv"

/-- The Alpha Vantage query URL built in `download_shareprices_intraday`. -/
def av_url (ticker interval key : String) : String :=
  "https://www.alphavantage.co/query?function=TIME_SERIES_INTRADAY&symbol=" ++ ticker ++
  "&interval=" ++ interval ++ "&adjusted=True&outputsize=full&datatype=csv&apikey=" ++ key

/-- The message of the assertion guarding `download_shareprices_intraday`. -/
def av_assert_msg : String := "You need to set an API key for Alpha Vantage"

/-- Observable side effects of the downloader. -/
inductive Effect where
  | httpGet (url : String)
  | writeFile (path : String)
  | makeDirs (path : String)
  | sleep (seconds : Nat)
deriving DecidableEq

/-- `download_shareprices_intraday` from `data.py`: assert that an API
key is set, create the intraday data directory if needed, then for each
ticker issue the HTTP GET, write the response file when the status is 200
(otherwise only print the status), and sleep 13s between requests.  The
HTTP responses are an oracle `url ↦ (status, body)`; the function returns
the trace of effects it performed and its outcome.  A failed assertion
performs no effect at all. -/
def download_shareprices_intraday (st : AVState) (responses : String → Nat × String)
    (dirExists : Bool) (tickers : List String) (interval : String) (slp : Bool) :
    List Effect × Except PyErr Unit :=
  match st.api_key with
  | none => ([], Except.error (PyErr.assertionError av_assert_msg))
  | some key =>
    let dirEffs := if dirExists then [] else [Effect.makeDirs data_dir_intraday]
    let n := tickers.length
    let perTicker := (tickers.mapIdx (fun i t => (i, t))).map (fun p =>
      let url := av_url p.2 interval key
      let path := _path_shareprices_intraday p.2 interval
      [Effect.httpGet url] ++
      (if (responses url).1 = 200 then [Effect.writeFile path] else []) ++
      (if slp ∧ p.1 < n - 1 then [Effect.sleep 13] else []))
    (dirEffs ++ perTicker.flatten, Except.ok ())

/-- Parse an intraday timestamp `YYYY-MM-DD HH:MM:SS` into seconds. -/
def parseTimestamp (s : String) : Option Nat :=
  match splitOnChar ' ' s.toList with
  | [dateCell, timeCell] => do
    let d ← parseDateISO (strOfChars dateCell)
    match splitOnChar ':' timeCell with
    | [hh, mm, ss] => do
      let h ← parseNatChars hh
      let m ← parseNatChars mm
      let s2 ← parseNatChars ss
      if h < 24 ∧ m < 60 ∧ s2 < 60 then pure (d * 86400 + h * 3600 + m * 60 + s2)
      else none
    | _ => none
  | _ => none

/-- `pd.read_csv(path, sep=',', index_col='timestamp', parse_dates=True)`
as used on the Alpha Vantage CSV files: the `timestamp` column becomes
the index, the remaining columns keep their header names. -/
def read_csv_intraday (fs : FS) (path : String) : Except PyErr Frame :=
  match fs.lookup path with
  | none => Except.error (PyErr.fileNotFound path)
  | some [] => Except.error PyErr.parseError
  | some (header :: rows) =>
    let hnames := (splitOnChar ',' header.toList).map strOfChars
    match hnames.findIdx? (fun nm => nm = "timestamp") with
    | none => Except.error (PyErr.keyError "timestamp")
    | some ti =>
      let n := hnames.length
      match mapO (fun line =>
        let cells := splitOnChar ',' line.toList
        if cells.length = n then do
          let ts ← parseTimestamp (strOfChars (cells.getD ti []))
          let vs ← mapO (fun p => if p.2 = [] then some none else (parseDecimalChars p.2).map some)
            ((cells.mapIdx (fun i c => (i, c))).filter (fun p => p.1 ≠ ti))
          pure (ts, vs)
        else none) rows with
      | none => Except.error PyErr.parseError
      | some prs =>
        Except.ok
          { index := prs.map Prod.fst,
            cols := ((hnames.mapIdx (fun i nm => (i, nm))).filter
                      (fun p => p.1 ≠ ti)).mapIdx
                    (fun j p => (p.2, prs.map (fun r => r.2.getD j none))) }

/-- The body of the per-ticker `try:` block of
`load_shareprices_intraday`: read the CSV, set the index name to
`DATE_TIME`, then build the rename dict, whose values `OPEN`, `CLOSE`,
`HIGH`, `LOW`, `VOLUME` are resolved in evaluation order. -/
def load_one_intraday (fs : FS) (ticker interval : String) :
    Except PyErr (String × Frame) := do
  let path := _path_shareprices_intraday ticker interval
  let df ← read_csv_intraday fs path
  let _dtName ← lookupName "DATE_TIME"
  let o ← lookupName "OPEN"
  let c ← lookupName "CLOSE"
  let hi ← lookupName "HIGH"
  let lo ← lookupName "LOW"
  let vo ← lookupName "VOLUME"
  pure (ticker,
    renameCols df [( "open", o), ( "close", c), ( "high", hi), ( "low", lo), ( "volume", vo)])

/-- A frame with a (ticker, timestamp) MultiIndex, as produced by
`pd.concat(df_dict, keys=df_dict.keys(), axis=0)`. -/
structure MultiFrame where
  parts : List (String × Frame)
deriving DecidableEq

/-- `pd.concat` raises `ValueError: No objects to concatenate` on an
empty collection. -/
def pd_concat_keys (l : List (String × Frame)) : Except PyErr MultiFrame :=
  match l with
  | [] => Except.error PyErr.valueErrorNoObjects
  | _ => Except.ok { parts := l }

/-- `load_shareprices_intraday` from `data.py`: every per-ticker failure
inside the `try:` block is swallowed by the bare `except:` (the ticker is
skipped); the collected frames are then concatenated. -/
def load_shareprices_intraday (fs : FS) (tickers : List String) (interval : String) :
    Except PyErr MultiFrame :=
  let df_dict := tickers.filterMap (fun t => (load_one_intraday fs t interval).toOption)
  pd_concat_keys df_dict

/-! ## Concrete inputs used to evaluate the model -/

/-- A data directory holding a well-formed Yahoo price file for `AAPL`. -/
def fs_yahoo_aapl : FS :=
  [( "data/AAPL Share-Price (Yahoo).csv",
     [ "Date,Open,High,Low,Close,Adj Close,Volume",
       "2020-01-02,74,75,73,75,73,135480400",
       "2020-01-03,74,75,73,74,72,146322800" ])]

/-- A data directory holding well-formed price and dividend files for the
`S&P 500` index. -/
def fs_index_sp : FS :=
  [( "data/S&P 500 Share-Price (Yahoo).csv",
     [ "Date,Open,High,Low,Close,Adj Close,Volume",
       "2020-01-02,3244,3258,3235,3257,3257,3458250000" ]),
   ( "data/S&P 500 Dividend Per Share.txt",
     [ "Date\tDividend",
       "03/31/2020\t15" ])]

/-- A data directory holding well-formed price, sales and earnings files
for the stock `WMT`. -/
def fs_stock_wmt : FS :=
  [( "data/WMT Share-Price (Yahoo).csv",
     [ "Date,Open,High,Low,Close,Adj Close,Volume",
       "2020-01-02,118,119,117,118,110,6118700" ]),
   ( "data/WMT Sales Per Share.txt",
     [ "Date\tSales Per Share",
       "01/31/2020\t183" ]),
   ( "data/WMT Earnings Per Share.txt",
     [ "Date\tEarnings Per Share",
       "01/31/2020\t5" ])]

/-- A data directory holding a well-formed file for each of the four
fundamental metrics of `WMT`. -/
def fs_fund_wmt : FS :=
  [( "data/WMT Sales Per Share.txt",
     [ "Date\tSales Per Share", "01/31/2020\t183" ]),
   ( "data/WMT Earnings Per Share.txt",
     [ "Date\tEarnings Per Share", "01/31/2020\t5" ]),
   ( "data/WMT Book-Value Per Share.txt",
     [ "Date\tBook-Value Per Share", "01/31/2020\t26" ]),
   ( "data/WMT Dividend Per Share TTM.txt",
     [ "Date\tDividend Per Share", "01/31/2020\t2" ])]

/-- A small combined table holding a daily price column, as the
assemblers would pass to the enrichers. -/
def df_wmt : Frame :=
  { index := [daysFromCivil 2020 1 2, daysFromCivil 2020 1 3],
    cols := [( "Share Price", [some 118, some 117])] }

/-- A data directory holding a well-formed Alpha Vantage intraday file
for `AAPL`. -/
def fs_intraday_aapl : FS :=
  [( "data/intraday/AAPL Share-Price Intraday 5min (AlphaVantage).csv",
     [ "timestamp,open,high,low,close,volume",
       "2021-01-04 09:30:00,133,134,132,133,1000" ])]

/-- Path of the intraday file in `fs_intraday_aapl`. -/
def intraday_path_aapl : String :=
  "data/intraday/AAPL Share-Price Intraday 5min (AlphaVantage).csv"

/-! ## Helper lemmas -/

/-- Binding a successful result applies the continuation. -/
@[simp] theorem except_ok_bind {ε α β : Type} (a : α) (k : α → Except ε β) :
    (Except.ok a >>= k) = k a := rfl

/-- A raised error has no `toOption` payload. -/
@[simp] theorem except_toOption_error {ε α : Type} (e : ε) :
    (Except.error e : Except ε α).toOption = none := rfl

/-- A successful result's `toOption` payload. -/
@[simp] theorem except_toOption_ok {ε α : Type} (a : α) :
    (Except.ok a : Except ε α).toOption = some a := rfl

/-- The per-ticker `try:` body of `load_shareprices_intraday` always
raises in this repository: after a successful read it evaluates the
rename dict, whose first value `OPEN` is not defined by `data_keys.py`,
so the bare `except:` swallows a `NameError` (or the read error) and the
ticker is dropped. -/
theorem load_one_intraday_fails (fs : FS) (t i : String) :
    (load_one_intraday fs t i).toOption = none := by
  cases h : read_csv_intraday fs (_path_shareprices_intraday t i) <;>
    (simp only [load_one_intraday]; rw [h]; rfl)

/-! ## Claim theorems -/

/-- C1: the Key Registry of this repository does not define the names
`TOTAL_RETURN` and `SHARE_PRICE` that `_load_price_yahoo` renames
`'Adj Close'`/`'Close'` into, so on a well-formed price file the loader
raises `NameError: TOTAL_RETURN` instead of returning the two-column
renamed table. -/
theorem yahoo_price_loader_key_bug :
    _load_price_yahoo fs_yahoo_aapl "AAPL" = Except.error (PyErr.nameError "TOTAL_RETURN")
    ∧ (read_csv_yahoo fs_yahoo_aapl "data/AAPL Share-Price (Yahoo).csv").isOk = true
    ∧ "TOTAL_RETURN" ∉ data_keys_names
    ∧ "SHARE_PRICE" ∉ data_keys_names := by
  refine ⟨by decide, by decide, by decide, by decide⟩

/-- C2: `load_index_data` on well-formed price and dividend files never
reaches the total-return computation: it raises `NameError: TOTAL_RETURN`
inside the price loader; moreover the helper module `returns` used at the
total-return line is not among the module's globals, so the claimed
derivation of `TOTAL_RETURN` cannot be produced by this code. -/
theorem index_total_return_key_bug :
    load_index_data fs_index_sp "S&P 500" true true true
      = Except.error (PyErr.nameError "TOTAL_RETURN")
    ∧ "returns" ∉ module_globals
    ∧ "TOTAL_RETURN" ∉ data_keys_names := by
  refine ⟨by decide, by decide, by decide⟩

/-- C3: `load_stock_data` with `sales=True, earnings=True` on well-formed
files raises `NameError: TOTAL_RETURN` in the price loader, so no
combined table (and in particular no `PROFIT_MARGIN` column) is ever
returned; the keys `PROFIT_MARGIN`, `EARNINGS_PER_SHARE` and
`SALES_PER_SHARE` are likewise undefined in the registry. -/
theorem stock_profit_margin_key_bug :
    load_stock_data fs_stock_wmt "WMT" true true true false
      = Except.error (PyErr.nameError "TOTAL_RETURN")
    ∧ "PROFIT_MARGIN" ∉ data_keys_names
    ∧ "EARNINGS_PER_SHARE" ∉ data_keys_names
    ∧ "SALES_PER_SHARE" ∉ data_keys_names := by
  refine ⟨by decide, by decide, by decide, by decide⟩

/-- C8: `load_shareprices_intraday` never returns a best-effort result:
the per-ticker `try:` body always raises (the rename keys `OPEN` … are
undefined in the registry), every ticker is skipped as claimed, but then
`pd.concat` on the empty collection raises
`ValueError: No objects to concatenate` — even when a well-formed CSV
file is present for the ticker. -/
theorem intraday_load_never_returns :
    (∀ (fs : FS) (tickers : List String) (interval : String),
        load_shareprices_intraday fs tickers interval
          = Except.error PyErr.valueErrorNoObjects)
    ∧ load_shareprices_intraday fs_intraday_aapl [ "AAPL" ] "5min"
        = Except.error PyErr.valueErrorNoObjects
    ∧ (read_csv_intraday fs_intraday_aapl intraday_path_aapl).isOk = true
    ∧ "OPEN" ∉ data_keys_names := by
  have hgen : ∀ (fs : FS) (tickers : List String) (interval : String),
      load_shareprices_intraday fs tickers interval
        = Except.error PyErr.valueErrorNoObjects := by
    intro fs tickers interval
    unfold load_shareprices_intraday
    have hnil : tickers.filterMap (fun t => (load_one_intraday fs t interval).toOption) = [] :=
      List.filterMap_eq_nil_iff.mpr (fun t _ => load_one_intraday_fails fs t interval)
    rw [hnil]
    rfl
  exact ⟨hgen, hgen _ _ _, by decide, by decide⟩

/-- C9: none of the four metric enrichers can ever succeed in this
repository: each one raises a `NameError` at its first column assignment
because the registry key it assigns to is undefined — even on a combined
table with a daily price column and a well-formed data file.  The
frame-preservation property claimed for successful enricher runs is
therefore vacuous; no enricher run adds its columns. -/
theorem enrichers_name_bug :
    _load_sales_per_share fs_fund_wmt "WMT" df_wmt
      = Except.error (PyErr.nameError "SALES_PER_SHARE")
    ∧ _load_earnings_per_share fs_fund_wmt "WMT" df_wmt true
      = Except.error (PyErr.nameError "EARNINGS_PER_SHARE")
    ∧ _load_book_value_per_share fs_fund_wmt "WMT" df_wmt
      = Except.error (PyErr.nameError "BOOK_VALUE_PER_SHARE")
    ∧ _load_dividend_TTM fs_fund_wmt "WMT" df_wmt
      = Except.error (PyErr.nameError "DIVIDEND_TTM")
    ∧ (_load_data fs_fund_wmt "data/WMT Sales Per Share.txt").isOk = true
    ∧ (_load_data fs_fund_wmt "data/WMT Dividend Per Share TTM.txt").isOk = true := by
  refine ⟨by decide, by decide, by decide, by decide, by decide, by decide⟩

/-- C10: with no API key set (the module-initial state), every call of
`download_shareprices_intraday` fails at its initial assertion with an
empty effect trace — no HTTP request, no directory creation, no file
write; once a key has been set by `set_api_key_av` (or by
`load_api_key_av`, which always stores the stripped first line of the key
file), the assertion branch is unreachable. -/
theorem download_requires_api_key :
    (∀ responses dirExists tickers interval slp,
        download_shareprices_intraday av_module_initial responses dirExists tickers interval slp
          = ([], Except.error (PyErr.assertionError av_assert_msg)))
    ∧ (∀ (k : String) (st : AVState) responses dirExists tickers interval slp,
        (download_shareprices_intraday (set_api_key_av (some k) st)
            responses dirExists tickers interval slp).2
          ≠ Except.error (PyErr.assertionError av_assert_msg))
    ∧ (∀ (fs : FS) (path : String) (st st2 : AVState),
        load_api_key_av fs path st = Except.ok st2 →
        ∀ responses dirExists tickers interval slp,
          (download_shareprices_intraday st2 responses dirExists tickers interval slp).2
            ≠ Except.error (PyErr.assertionError av_assert_msg)) := by
  refine ⟨fun _ _ _ _ _ => rfl, ?_, ?_⟩
  · intro k st responses dirExists tickers interval slp
    simp [download_shareprices_intraday, set_api_key_av]
  · intro fs path st st2 hload responses dirExists tickers interval slp
    unfold load_api_key_av at hload
    cases hfs : fs.lookup path with
    | none => rw [hfs] at hload; cases hload
    | some lines =>
      rw [hfs] at hload
      cases hload
      simp [download_shareprices_intraday, set_api_key_av]

/-- C10 witness: the hypotheses of the `load_api_key_av` conjunct are
satisfiable at a concrete key file. -/
theorem download_requires_api_key_witness :
    (download_shareprices_intraday
        (set_api_key_av (some ( "ABC".trim)) av_module_initial)
        (fun _ => (200, "")) true [ "IBM" ] "5min" false).2
      ≠ Except.error (PyErr.assertionError av_assert_msg) :=
  download_requires_api_key.2.2
    [( "k.txt", [ "ABC" ])] "k.txt" av_module_initial
    (set_api_key_av (some ( "ABC".trim)) av_module_initial) rfl
    (fun _ => (200, "")) true [ "IBM" ] "5min" false

/-! ## Helper lemmas for `common_period` -/

/-- A nonempty index exposes its first date. -/
theorem head?_of_ne_nil (l : List Nat) (h : l ≠ []) : l.head? = some (l.headD 0) := by
  cases l with
  | nil => exact absurd rfl h
  | cons a t => rfl

/-- A nonempty index exposes its last date. -/
theorem getLast?_of_ne_nil (l : List Nat) (h : l ≠ []) :
    l.getLast? = some (l.getLastD 0) := by
  cases hlast : l.getLast? with
  | none => exact absurd (List.getLast?_eq_none_iff.mp hlast) h
  | some d => rw [List.getLastD_eq_getLast?, hlast]; rfl

/-- `df.index[0]` on a nonempty index succeeds with the first date. -/
theorem np_start_ok (df : List Nat) (h : df ≠ []) :
    np_start df = Except.ok (df.headD 0) := by
  unfold np_start
  rw [head?_of_ne_nil df h]

/-- `df.index[-1]` on a nonempty index succeeds with the last date. -/
theorem np_end_ok (df : List Nat) (h : df ≠ []) :
    np_end df = Except.ok (df.getLastD 0) := by
  unfold np_end
  rw [getLast?_of_ne_nil df h]

/-- If every step succeeds pointwise, the traversal returns the map. -/
theorem mapE_congr_ok {α β : Type} (f : α → Except PyErr β) (g : α → β) (l : List α)
    (h : ∀ x ∈ l, f x = Except.ok (g x)) : mapE f l = Except.ok (l.map g) := by
  induction l with
  | nil => rfl
  | cons a t ih =>
    simp [mapE, h a (List.mem_cons_self a t),
      ih (fun x hx => h x (List.mem_cons_of_mem a hx))]

/-- `List.foldl max` computes an upper bound attained at the seed or at a
list element. -/
theorem foldl_max_spec (l : List Nat) (a : Nat) :
    a ≤ l.foldl max a ∧ (∀ x ∈ l, x ≤ l.foldl max a)
      ∧ (l.foldl max a = a ∨ l.foldl max a ∈ l) := by
  induction l generalizing a with
  | nil => exact ⟨le_refl a, by simp, Or.inl rfl⟩
  | cons b t ih =>
    simp only [List.foldl_cons]
    have h := ih (max a b)
    refine ⟨le_trans (le_max_left a b) h.1, ?_, ?_⟩
    · intro x hx
      rcases List.mem_cons.mp hx with hxb | hxt
      · subst hxb
        exact le_trans (le_max_right a x) h.1
      · exact h.2.1 x hxt
    · rcases h.2.2 with heq | hmem
      · rcases max_choice a b with hab | hab
        · exact Or.inl (by rw [heq, hab])
        · exact Or.inr (by rw [heq, hab]; exact List.mem_cons_self b t)
      · exact Or.inr (List.mem_cons_of_mem b hmem)

/-- `List.foldl min` computes a lower bound attained at the seed or at a
list element. -/
theorem foldl_min_spec (l : List Nat) (a : Nat) :
    l.foldl min a ≤ a ∧ (∀ x ∈ l, l.foldl min a ≤ x)
      ∧ (l.foldl min a = a ∨ l.foldl min a ∈ l) := by
  induction l generalizing a with
  | nil => exact ⟨le_refl a, by simp, Or.inl rfl⟩
  | cons b t ih =>
    simp only [List.foldl_cons]
    have h := ih (min a b)
    refine ⟨le_trans h.1 (min_le_left a b), ?_, ?_⟩
    · intro x hx
      rcases List.mem_cons.mp hx with hxb | hxt
      · subst hxb
        exact le_trans h.1 (min_le_right a x)
      · exact h.2.1 x hxt
    · rcases h.2.2 with heq | hmem
      · rcases min_choice a b with hab | hab
        · exact Or.inl (by rw [heq, hab])
        · exact Or.inr (by rw [heq, hab]; exact List.mem_cons_self b t)
      · exact Or.inr (List.mem_cons_of_mem b hmem)

/-- C6: on any nonempty list of nonempty date-sorted tables,
`common_period` succeeds and returns the maximum of the start dates
paired with the minimum of the end dates (the function is a pure
reduction of the indices, evaluated here without touching the input
tables); in particular on tables spanning [2010-01-01, 2015-01-01] and
[2012-01-01, 2016-01-01] it returns (2012-01-01, 2015-01-01). -/
theorem common_period_max_min :
    (∀ (dfs : List (List Nat)), dfs ≠ [] → (∀ df ∈ dfs, df ≠ []) →
      ∃ s e, common_period dfs = Except.ok (s, e)
        ∧ (∃ df ∈ dfs, df.head? = some s)
        ∧ (∀ df ∈ dfs, ∀ d, df.head? = some d → d ≤ s)
        ∧ (∃ df ∈ dfs, df.getLast? = some e)
        ∧ (∀ df ∈ dfs, ∀ d, df.getLast? = some d → e ≤ d))
    ∧ common_period
        [[daysFromCivil 2010 1 1, daysFromCivil 2015 1 1],
         [daysFromCivil 2012 1 1, daysFromCivil 2016 1 1]]
        = Except.ok (daysFromCivil 2012 1 1, daysFromCivil 2015 1 1) := by
  constructor
  · intro dfs hne hall
    have hs : mapE np_start dfs = Except.ok (dfs.map (fun df => df.headD 0)) :=
      mapE_congr_ok _ _ _ (fun df hdf => np_start_ok df (hall df hdf))
    have he : mapE np_end dfs = Except.ok (dfs.map (fun df => df.getLastD 0)) :=
      mapE_congr_ok _ _ _ (fun df hdf => np_end_ok df (hall df hdf))
    cases dfs with
    | nil => exact absurd rfl hne
    | cons df rest =>
      have hdf0 : df ≠ [] := hall df (List.mem_cons_self df rest)
      refine ⟨(rest.map (fun l => l.headD 0)).foldl max (df.headD 0),
              (rest.map (fun l => l.getLastD 0)).foldl min (df.getLastD 0),
              ?_, ?_, ?_, ?_, ?_⟩
      · simp only [common_period, hs, he, except_ok_bind, List.map_cons]
        rfl
      · rcases (foldl_max_spec (rest.map (fun l => l.headD 0)) (df.headD 0)).2.2 with
          heq | hmem
        · exact ⟨df, List.mem_cons_self df rest, by rw [head?_of_ne_nil df hdf0, heq]⟩
        · rcases List.mem_map.mp hmem with ⟨df', hdf', hmap⟩
          refine ⟨df', List.mem_cons_of_mem df hdf', ?_⟩
          rw [head?_of_ne_nil df' (hall df' (List.mem_cons_of_mem df hdf')), hmap]
      · intro df' hdf' d hd
        rw [head?_of_ne_nil df' (hall df' hdf')] at hd
        have hdd : d = df'.headD 0 := (Option.some.inj hd).symm
        subst hdd
        rcases List.mem_cons.mp hdf' with hfirst | hrest
        · subst hfirst
          exact (foldl_max_spec _ _).1
        · exact (foldl_max_spec _ _).2.1 _ (List.mem_map.mpr ⟨df', hrest, rfl⟩)
      · rcases (foldl_min_spec (rest.map (fun l => l.getLastD 0)) (df.getLastD 0)).2.2 with
          heq | hmem
        · exact ⟨df, List.mem_cons_self df rest, by rw [getLast?_of_ne_nil df hdf0, heq]⟩
        · rcases List.mem_map.mp hmem with ⟨df', hdf', hmap⟩
          refine ⟨df', List.mem_cons_of_mem df hdf', ?_⟩
          rw [getLast?_of_ne_nil df' (hall df' (List.mem_cons_of_mem df hdf')), hmap]
      · intro df' hdf' d hd
        rw [getLast?_of_ne_nil df' (hall df' hdf')] at hd
        have hdd : d = df'.getLastD 0 := (Option.some.inj hd).symm
        subst hdd
        rcases List.mem_cons.mp hdf' with hfirst | hrest
        · subst hfirst
          exact (foldl_min_spec _ _).1
        · exact (foldl_min_spec _ _).2.1 _ (List.mem_map.mpr ⟨df', hrest, rfl⟩)
  · decide

/-- C6 witness: the general statement applied to two concrete tables. -/
theorem common_period_max_min_witness :
    common_period [[1, 5], [2, 9]] = Except.ok (2, 5) := by
  obtain ⟨s, e, heq, ⟨df1, hdf1, hs1⟩, hsup, ⟨df2, hdf2, he2⟩, hinf⟩ :=
    common_period_max_min.1 [[1, 5], [2, 9]] (by decide) (by decide)
  have h2s : 2 ≤ s := hsup [2, 9] (by simp) 2 rfl
  have h5e : e ≤ 5 := hinf [1, 5] (by simp) 5 (by rfl)
  have hs2 : s = 2 := by
    rcases List.mem_cons.mp hdf1 with h | h
    · subst h
      have hh : ([1, 5] : List Nat).head? = some 1 := rfl
      rw [hh] at hs1
      have := Option.some.inj hs1
      omega
    · simp only [List.mem_singleton] at h
      subst h
      have hh : ([2, 9] : List Nat).head? = some 2 := rfl
      rw [hh] at hs1
      have := Option.some.inj hs1
      omega
  have he5 : e = 5 := by
    rcases List.mem_cons.mp hdf2 with h | h
    · subst h
      have hh : ([1, 5] : List Nat).getLast? = some 5 := rfl
      rw [hh] at he2
      have := Option.some.inj he2
      omega
    · simp only [List.mem_singleton] at h
      subst h
      have hh : ([2, 9] : List Nat).getLast? = some 9 := rfl
      rw [hh] at he2
      have := Option.some.inj he2
      omega
  rw [hs2, he5] at heq
  exact heq

/-! ## Loader failure modes and their propagation -/

/-- Turning the values into `some`s does not change the date column. -/
theorem toOptSeries_map_fst (pts : Series) :
    (toOptSeries pts).map Prod.fst = pts.map Prod.fst := by
  induction pts with
  | nil => rfl
  | cons p t ih => simp only [toOptSeries, List.map_cons] at ih ⊢; rw [ih]

/-- Looking a date up in the `some`-wrapped series. -/
theorem lookup_toOptSeries (pts : Series) (d : Nat) :
    (toOptSeries pts).lookup d = (pts.lookup d).map some := by
  induction pts with
  | nil => rfl
  | cons p t ih =>
    simp only [toOptSeries, List.map_cons] at ih ⊢
    by_cases h : d = p.1
    · simp [List.lookup, h]
    · have hb : (d == p.1) = false := beq_eq_false_iff_ne.mpr h
      simp [List.lookup, hb, ih]

/-- In a date-sorted series, `lookup` returns the stored value. -/
theorem lookup_eq_some_of_mem (pts : Series)
    (hsort : pts.Pairwise (fun a b => a.1 < b.1)) (d : Nat) (v : Rat)
    (hmem : (d, v) ∈ pts) : pts.lookup d = some v := by
  induction pts with
  | nil => cases hmem
  | cons p t ih =>
    rcases List.mem_cons.mp hmem with h | h
    · subst h
      simp [List.lookup]
    · have hlt : p.1 < d := (List.pairwise_cons.mp hsort).1 (d, v) h
      have hb : (d == p.1) = false :=
        beq_eq_false_iff_ne.mpr (fun hh => Nat.ne_of_lt hlt hh.symm)
      simp [List.lookup, hb, ih (List.pairwise_cons.mp hsort).2 h]

/-- A date carried by no row of the series looks up to nothing. -/
theorem lookup_eq_none_of_not_mem (pts : Series) (d : Nat)
    (h : ∀ p ∈ pts, p.1 ≠ d) : pts.lookup d = none := by
  induction pts with
  | nil => rfl
  | cons p t ih =>
    have hb : (d == p.1) = false :=
      beq_eq_false_iff_ne.mpr (fun hh => h p (List.mem_cons_self p t) hh.symm)
    simp [List.lookup, hb, ih (fun q hq => h q (List.mem_cons_of_mem p hq))]

/-- `lastD` skips the head of a two-or-more element index. -/
theorem lastD_cons_cons (a b : Nat) (t : List Nat) :
    lastD (a :: b :: t) = lastD (b :: t) := rfl

/-- The last date of a nonempty index is one of its dates. -/
theorem lastD_mem : ∀ (l : List Nat), l ≠ [] → lastD l ∈ l := by
  intro l
  induction l with
  | nil => intro h; exact absurd rfl h
  | cons a t ih =>
    intro _
    cases t with
    | nil => simp [lastD]
    | cons b t2 =>
      rw [lastD_cons_cons]
      exact List.mem_cons_of_mem a (ih (by simp))

/-- In a sorted index every date is at most the last date. -/
theorem le_lastD_of_mem (l : List Nat) (hp : l.Pairwise (· < ·)) (x : Nat)
    (hx : x ∈ l) : x ≤ lastD l := by
  induction l with
  | nil => cases hx
  | cons a t ih =>
    cases t with
    | nil =>
      rw [List.mem_singleton] at hx
      subst hx
      simp [lastD]
    | cons b t2 =>
      rw [lastD_cons_cons]
      rcases List.mem_cons.mp hx with h | h
      · subst h
        have hlt : x < lastD (b :: t2) :=
          (List.pairwise_cons.mp hp).1 _ (lastD_mem (b :: t2) (by simp))
        omega
      · exact ih (List.pairwise_cons.mp hp).2 h

/-- In a sorted index every date is at least the first date. -/
theorem head_le_of_mem (d0 : Nat) (rest : List Nat)
    (hp : (d0 :: rest).Pairwise (· < ·)) (x : Nat) (hx : x ∈ d0 :: rest) :
    d0 ≤ x := by
  rcases List.mem_cons.mp hx with h | h
  · omega
  · exact Nat.le_of_lt ((List.pairwise_cons.mp hp).1 x h)

/-- Length of the daily calendar spanned by a nonempty index. -/
theorem daily_grid_length (d0 : Nat) (rest : List Nat) :
    (daily_grid (d0 :: rest)).length = lastD (d0 :: rest) + 1 - d0 := by
  simp [daily_grid]

/-- The daily calendar at position `k` is the `k`-th day after the start. -/
theorem daily_grid_getElem (d0 : Nat) (rest : List Nat) (k : Nat)
    (hk : k < (daily_grid (d0 :: rest)).length) :
    (daily_grid (d0 :: rest))[k] = d0 + k := by
  simp [daily_grid]

/-- The daily calendar is strictly sorted. -/
theorem daily_grid_sorted (idx : List Nat) : (daily_grid idx).Pairwise (· < ·) := by
  cases idx with
  | nil => simp [daily_grid]
  | cons d0 rest =>
    simp only [daily_grid]
    exact List.pairwise_map.mpr ((List.pairwise_lt_range _).imp (fun h => by omega))

/-- The daily calendar contains exactly the days of the span. -/
theorem mem_daily_grid (d0 : Nat) (rest : List Nat) (d : Nat) :
    d ∈ daily_grid (d0 :: rest) ↔ d0 ≤ d ∧ d ≤ lastD (d0 :: rest) := by
  simp only [daily_grid, List.mem_map, List.mem_range]
  constructor
  · rintro ⟨k, hk, rfl⟩
    omega
  · rintro ⟨h1, h2⟩
    exact ⟨d - d0, by omega, by omega⟩

/-- Interpolation does not change the number of rows. -/
theorem interpolate_linear_length (vals : List (Option Rat)) :
    (interpolate_linear vals).length = vals.length := by
  simp [interpolate_linear]

/-- Interpolation is computed positionwise by `interpValue`. -/
theorem interpolate_linear_getElem (vals : List (Option Rat)) (k : Nat)
    (hk : k < (interpolate_linear vals).length) :
    (interpolate_linear vals)[k] = interpValue vals k := by
  simp [interpolate_linear]

/-- One raw value per calendar day. -/
theorem gridVals_length (pts : OSeries) (grid : List Nat) :
    (gridVals pts grid).length = grid.length := by
  simp [gridVals]

/-- The raw value on day `grid[k]` is the series lookup of that day. -/
theorem gridVals_getElem (pts : OSeries) (grid : List Nat) (k : Nat)
    (hk : k < grid.length) (hk2 : k < (gridVals pts grid).length) :
    (gridVals pts grid)[k] = (pts.lookup grid[k]).join := by
  simp [gridVals]

/-- For a fully-known series the raw value on day `grid[k]` is the plain
series lookup. -/
theorem gridVals_toOpt_getElem (pts : Series) (grid : List Nat) (k : Nat)
    (hk : k < grid.length) (hk2 : k < (gridVals (toOptSeries pts) grid).length) :
    (gridVals (toOptSeries pts) grid)[k] = pts.lookup grid[k] := by
  rw [gridVals_getElem _ _ _ hk hk2, lookup_toOptSeries]
  cases pts.lookup grid[k] <;> rfl

/-- Unfolding equation of `prevKnown` at position `0`. -/
theorem prevKnown_zero (vals : List (Option Rat)) :
    prevKnown vals 0 = match vals.getD 0 none with
      | some v => some (0, v)
      | none => none := rfl

/-- Unfolding equation of `prevKnown` at a successor position. -/
theorem prevKnown_succ (vals : List (Option Rat)) (k : Nat) :
    prevKnown vals (k + 1) = match vals.getD (k + 1) none with
      | some v => some (k + 1, v)
      | none => prevKnown vals k := rfl

/-- Unfolding equation of `nextKnownAux` with positive fuel. -/
theorem nextKnownAux_succ (vals : List (Option Rat)) (fuel k : Nat) :
    nextKnownAux vals (fuel + 1) k = match vals.getD k none with
      | some v => some (k, v)
      | none => nextKnownAux vals fuel (k + 1) := rfl

/-- `prevKnown` stops at a known value. -/
theorem prevKnown_of_some (vals : List (Option Rat)) (k : Nat) (v : Rat)
    (h : vals.getD k none = some v) : prevKnown vals k = some (k, v) := by
  cases k with
  | zero => rw [prevKnown_zero, h]
  | succ k0 => rw [prevKnown_succ, h]

/-- `prevKnown` walks over a missing value. -/
theorem prevKnown_step (vals : List (Option Rat)) (k : Nat)
    (h : vals.getD (k + 1) none = none) :
    prevKnown vals (k + 1) = prevKnown vals k := by
  rw [prevKnown_succ, h]

/-- `nextKnown` stops at a known value. -/
theorem nextKnown_of_some (vals : List (Option Rat)) (k : Nat) (v : Rat)
    (hk : k < vals.length) (h : vals.getD k none = some v) :
    nextKnown vals k = some (k, v) := by
  have hm : vals.length - k = (vals.length - (k + 1)) + 1 := by omega
  rw [nextKnown, hm, nextKnownAux_succ, h]

/-- `nextKnown` walks over a missing value. -/
theorem nextKnown_step (vals : List (Option Rat)) (k : Nat)
    (hk : k < vals.length) (h : vals.getD k none = none) :
    nextKnown vals k = nextKnown vals (k + 1) := by
  have hm : vals.length - k = (vals.length - (k + 1)) + 1 := by omega
  rw [nextKnown, hm, nextKnownAux_succ, h]
  rfl

/-- A known value is kept unchanged by interpolation. -/
theorem interpValue_of_known (vals : List (Option Rat)) (k : Nat) (v : Rat)
    (hk : k < vals.length) (h : vals.getD k none = some v) :
    interpValue vals k = some v := by
  unfold interpValue
  rw [prevKnown_of_some vals k v h, nextKnown_of_some vals k v hk h]
  simp

/-- Looking up the `p`-th key of a zipped association list with strictly
sorted keys returns the `p`-th value. -/
theorem lookup_zip_getElem {β : Type} (ds : List Nat) (ws : List β) (p : Nat)
    (hsort : ds.Pairwise (· < ·)) (hlen : ds.length = ws.length)
    (hp : p < ds.length) (hpw : p < ws.length) :
    (ds.zip ws).lookup ds[p] = some ws[p] := by
  induction ds generalizing ws p with
  | nil => exact absurd hp (by simp)
  | cons d dt ih =>
    cases ws with
    | nil => simp at hlen
    | cons w wt =>
      cases p with
      | zero => simp [List.lookup]
      | succ p0 =>
        have hp0 : p0 < dt.length := by simpa using hp
        have hpw0 : p0 < wt.length := by simpa using hpw
        have hlt : d < dt[p0] :=
          (List.pairwise_cons.mp hsort).1 _ (List.getElem_mem hp0)
        have hb : (dt[p0] == d) = false :=
          beq_eq_false_iff_ne.mpr (fun hh => Nat.ne_of_lt hlt hh.symm)
        have hihr := ih wt p0 (List.pairwise_cons.mp hsort).2 (by simpa using hlen) hp0 hpw0
        simpa [List.lookup, hb, List.zip_cons_cons, List.getElem_cons_succ] using hihr

/-- Wrapping values in `some` keeps the number of rows. -/
theorem toOptSeries_length (pts : Series) : (toOptSeries pts).length = pts.length := by
  simp [toOptSeries]

/-- The `some`-wrapped series, positionwise. -/
theorem toOptSeries_getElem (pts : Series) (k : Nat) (hk : k < pts.length)
    (hk2 : k < (toOptSeries pts).length) :
    (toOptSeries pts)[k] = (((pts[k]).1), some ((pts[k]).2)) := by
  simp [toOptSeries]

/-- C4: the Daily Resampler is idempotent — on a series that already has
exactly one (known) value per calendar day over its span, `_resample_daily`
returns the series unchanged: same dates, same values (the output values
are the input values, all known). -/
theorem resample_daily_idempotent (pts : Series)
    (hdaily : pts.Chain' (fun a b => b.1 = a.1 + 1)) :
    _resample_daily pts = toOptSeries pts := by
  cases pts with
  | nil => rfl
  | cons p0 rest =>
    have hlen : (p0 :: rest).length = rest.length + 1 := rfl
    have hget : ∀ (i : Nat) (hi : i < (p0 :: rest).length),
        ((p0 :: rest)[i]).1 = p0.1 + i := by
      intro i
      induction i with
      | zero =>
        intro hi
        simp
      | succ i0 ihh =>
        intro hi
        have hi0 : i0 < (p0 :: rest).length := by omega
        have hi1 : i0 < (p0 :: rest).length - 1 := by omega
        have hstep := List.chain'_iff_get.mp hdaily i0 hi1
        simp only [List.get_eq_getElem] at hstep
        rw [hstep, ihh hi0]
        omega
    have hpair : (p0 :: rest).Pairwise (fun a b => a.1 < b.1) := by
      rw [List.pairwise_iff_getElem]
      intro i j hi hj hij
      have h1 := hget i hi
      have h2 := hget j hj
      omega
    have hpairD : ((p0 :: rest).map Prod.fst).Pairwise (· < ·) :=
      List.pairwise_map.mpr hpair
    have hL : lastD ((p0 :: rest).map Prod.fst) = p0.1 + ((p0 :: rest).length - 1) := by
      have hne : (p0 :: rest).map Prod.fst ≠ [] := by simp
      rcases List.mem_iff_getElem.mp (lastD_mem _ hne) with ⟨i, hi, hEq⟩
      have hi2 : i < (p0 :: rest).length := by simpa using hi
      have hgi : ((p0 :: rest).map Prod.fst)[i] = p0.1 + i := by
        rw [List.getElem_map]
        exact hget i hi2
      have hmem2 : p0.1 + ((p0 :: rest).length - 1) ∈ (p0 :: rest).map Prod.fst := by
        rw [List.mem_iff_getElem]
        refine ⟨(p0 :: rest).length - 1, by simp, ?_⟩
        rw [List.getElem_map]
        exact hget _ (by omega)
      have h2 := le_lastD_of_mem _ hpairD _ hmem2
      omega
    have hD2 : (toOptSeries (p0 :: rest)).map Prod.fst = p0.1 :: rest.map Prod.fst := by
      rw [toOptSeries_map_fst, List.map_cons]
    have hres : _resample_daily (p0 :: rest)
        = (daily_grid (p0.1 :: rest.map Prod.fst)).zip
            (interpolate_linear (gridVals (toOptSeries (p0 :: rest))
              (daily_grid (p0.1 :: rest.map Prod.fst)))) := by
      simp only [_resample_daily, resample_daily_core, hD2]
    rw [hres]
    have hLl : lastD (p0.1 :: rest.map Prod.fst) = p0.1 + ((p0 :: rest).length - 1) := by
      rw [← List.map_cons]
      exact hL
    have hglen : (daily_grid (p0.1 :: rest.map Prod.fst)).length = (p0 :: rest).length := by
      rw [daily_grid_length, hLl]
      omega
    have hvlen : (gridVals (toOptSeries (p0 :: rest))
        (daily_grid (p0.1 :: rest.map Prod.fst))).length = (p0 :: rest).length := by
      rw [gridVals_length, hglen]
    have hilen : (interpolate_linear (gridVals (toOptSeries (p0 :: rest))
        (daily_grid (p0.1 :: rest.map Prod.fst)))).length = (p0 :: rest).length := by
      rw [interpolate_linear_length, hvlen]
    apply List.ext_getElem
    · rw [List.length_zip, hglen, hilen, toOptSeries_length]
      omega
    · intro k hk1 hk2
      have hkn : k < (p0 :: rest).length := by
        simp only [List.length_zip, hglen, hilen] at hk1
        omega
      have hkg : k < (daily_grid (p0.1 :: rest.map Prod.fst)).length := by omega
      have hkv : k < (gridVals (toOptSeries (p0 :: rest))
          (daily_grid (p0.1 :: rest.map Prod.fst))).length := by omega
      have hki : k < (interpolate_linear (gridVals (toOptSeries (p0 :: rest))
          (daily_grid (p0.1 :: rest.map Prod.fst)))).length := by omega
      rw [List.getElem_zip, interpolate_linear_getElem _ _ hki]
      have hgridk : (daily_grid (p0.1 :: rest.map Prod.fst))[k] = p0.1 + k :=
        daily_grid_getElem _ _ _ hkg
      have hvalk : (gridVals (toOptSeries (p0 :: rest))
          (daily_grid (p0.1 :: rest.map Prod.fst)))[k] = some (((p0 :: rest)[k]).2) := by
        rw [gridVals_toOpt_getElem _ _ _ hkg hkv, hgridk]
        have hpk : (p0.1 + k, ((p0 :: rest)[k]).2) = (p0 :: rest)[k] :=
          Prod.ext_iff.mpr ⟨(hget k hkn).symm, rfl⟩
        have hmemk : (p0.1 + k, ((p0 :: rest)[k]).2) ∈ (p0 :: rest) := by
          rw [hpk]
          exact List.getElem_mem hkn
        exact lookup_eq_some_of_mem _ hpair _ _ hmemk
      have hinterp : interpValue (gridVals (toOptSeries (p0 :: rest))
          (daily_grid (p0.1 :: rest.map Prod.fst))) k = some (((p0 :: rest)[k]).2) := by
        apply interpValue_of_known _ _ _ (by omega)
        rw [List.getD_eq_getElem _ _ hkv]
        exact hvalk
      rw [hinterp, hgridk, toOptSeries_getElem _ _ hkn hk2, hget k hkn]

/-- C4 witness: resampling a concrete already-daily series returns it
unchanged. -/
theorem resample_daily_idempotent_witness :
    _resample_daily [(100, 5), (101, 7), (102, 4)]
      = toOptSeries [(100, 5), (101, 7), (102, 4)] :=
  resample_daily_idempotent _ (by simp [List.chain'_cons])

/-- C5: for a date-sorted series containing known points `(d1, v1)` and
`(d2, v2)` with `d2 = d1 + 2` and no point between them, the Daily
Resampler's output at the midpoint date `d1 + 1` is exactly the linear
interpolation `(v1 + v2) / 2`; and the output covers exactly the span
from the first to the last known date — a day is in the output iff some
known date is at or before it and some known date is at or after it (no
extrapolation beyond the span). -/
theorem resample_daily_midpoint (pts : Series) (d1 d2 : Nat) (v1 v2 : Rat)
    (hsort : pts.Pairwise (fun a b => a.1 < b.1))
    (h1 : (d1, v1) ∈ pts) (h2 : (d2, v2) ∈ pts) (hgap : d2 = d1 + 2)
    (hmid : ∀ p ∈ pts, p.1 ≠ d1 + 1) :
    (_resample_daily pts).lookup (d1 + 1) = some (some ((v1 + v2) / 2))
    ∧ ∀ d, (∃ w, (d, w) ∈ _resample_daily pts) ↔
        ((∃ q ∈ pts, q.1 ≤ d) ∧ (∃ q ∈ pts, d ≤ q.1)) := by
  cases pts with
  | nil => cases h1
  | cons p0 rest =>
    have hD2 : (toOptSeries (p0 :: rest)).map Prod.fst = p0.1 :: rest.map Prod.fst := by
      rw [toOptSeries_map_fst, List.map_cons]
    have hres : _resample_daily (p0 :: rest)
        = (daily_grid (p0.1 :: rest.map Prod.fst)).zip
            (interpolate_linear (gridVals (toOptSeries (p0 :: rest))
              (daily_grid (p0.1 :: rest.map Prod.fst)))) := by
      simp only [_resample_daily, resample_daily_core, hD2]
    rw [hres]
    set g := daily_grid (p0.1 :: rest.map Prod.fst) with hgdef
    set vals := gridVals (toOptSeries (p0 :: rest)) g with hvdef
    set ws := interpolate_linear vals with hwdef
    have hpairD : (p0.1 :: rest.map Prod.fst).Pairwise (· < ·) := by
      rw [← List.map_cons]
      exact List.pairwise_map.mpr hsort
    have hd1D : d1 ∈ p0.1 :: rest.map Prod.fst := by
      rw [← List.map_cons]
      exact List.mem_map.mpr ⟨(d1, v1), h1, rfl⟩
    have hd2D : d2 ∈ p0.1 :: rest.map Prod.fst := by
      rw [← List.map_cons]
      exact List.mem_map.mpr ⟨(d2, v2), h2, rfl⟩
    have hd0le : p0.1 ≤ d1 := head_le_of_mem _ _ hpairD _ hd1D
    have hd2le : d2 ≤ lastD (p0.1 :: rest.map Prod.fst) := le_lastD_of_mem _ hpairD _ hd2D
    have hglen : g.length = lastD (p0.1 :: rest.map Prod.fst) + 1 - p0.1 := by
      rw [hgdef]
      exact daily_grid_length _ _
    have hvallen : vals.length = g.length := by
      rw [hvdef]
      exact gridVals_length _ _
    have hwlen : ws.length = vals.length := by
      rw [hwdef]
      exact interpolate_linear_length _
    have hgsort : g.Pairwise (· < ·) := by
      rw [hgdef]
      exact daily_grid_sorted _
    have hkey : ∀ (k : Nat) (hk : k < g.length), g[k] = p0.1 + k := by
      intro k hk
      have hk2 : k < (daily_grid (p0.1 :: rest.map Prod.fst)).length := by
        rw [← hgdef]
        exact hk
      exact daily_grid_getElem _ _ _ hk2
    have hvalget : ∀ (k : Nat) (hk : k < g.length) (hk2 : k < vals.length),
        vals[k] = (p0 :: rest).lookup (p0.1 + k) := by
      intro k hk hk2
      have hk2x : k < (gridVals (toOptSeries (p0 :: rest)) g).length := by
        rw [← hvdef]
        exact hk2
      have h := gridVals_toOpt_getElem (p0 :: rest) g k hk hk2x
      rw [hkey k hk] at h
      exact h
    have hs1 : (p0 :: rest).lookup d1 = some v1 := lookup_eq_some_of_mem _ hsort _ _ h1
    have hs2 : (p0 :: rest).lookup d2 = some v2 := lookup_eq_some_of_mem _ hsort _ _ h2
    have hsn : (p0 :: rest).lookup (d1 + 1) = none := lookup_eq_none_of_not_mem _ _ hmid
    have hb2 : d1 - p0.1 + 2 < g.length := by omega
    have hb1 : d1 - p0.1 + 1 < g.length := by omega
    have hb0 : d1 - p0.1 < g.length := by omega
    have hv0 : d1 - p0.1 < vals.length := by omega
    have hv1 : d1 - p0.1 + 1 < vals.length := by omega
    have hv2x : d1 - p0.1 + 2 < vals.length := by omega
    have harith0 : p0.1 + (d1 - p0.1) = d1 := by omega
    have harith1 : p0.1 + (d1 - p0.1 + 1) = d1 + 1 := by omega
    have harith2 : p0.1 + (d1 - p0.1 + 2) = d2 := by omega
    have hval0 : vals[d1 - p0.1] = some v1 := by
      rw [hvalget _ hb0 hv0, harith0]
      exact hs1
    have hval1 : vals[d1 - p0.1 + 1] = none := by
      rw [hvalget _ hb1 hv1, harith1]
      exact hsn
    have hval2 : vals[d1 - p0.1 + 2] = some v2 := by
      rw [hvalget _ hb2 hv2x, harith2]
      exact hs2
    have hgd0 : vals.getD (d1 - p0.1) none = some v1 := by
      rw [List.getD_eq_getElem _ _ hv0]
      exact hval0
    have hgd1 : vals.getD (d1 - p0.1 + 1) none = none := by
      rw [List.getD_eq_getElem _ _ hv1]
      exact hval1
    have hgd2 : vals.getD (d1 - p0.1 + 2) none = some v2 := by
      rw [List.getD_eq_getElem _ _ hv2x]
      exact hval2
    have hprev : prevKnown vals (d1 - p0.1 + 1) = some (d1 - p0.1, v1) := by
      rw [prevKnown_step _ _ hgd1, prevKnown_of_some _ _ _ hgd0]
    have hnext : nextKnown vals (d1 - p0.1 + 1) = some (d1 - p0.1 + 2, v2) := by
      rw [nextKnown_step _ _ hv1 hgd1]
      exact nextKnown_of_some _ _ _ hv2x hgd2
    have hmidval : interpValue vals (d1 - p0.1 + 1) = some ((v1 + v2) / 2) := by
      unfold interpValue
      rw [hprev, hnext]
      have hne : ¬(d1 - p0.1 + 2 = d1 - p0.1) := by omega
      have hc1 : ((d1 - p0.1 + 1 : Nat) : Rat) - ((d1 - p0.1 : Nat) : Rat) = 1 := by
        push_cast
        ring
      have hc2 : ((d1 - p0.1 + 2 : Nat) : Rat) - ((d1 - p0.1 : Nat) : Rat) = 2 := by
        push_cast
        ring
      simp only [hne, if_false, hc1, hc2]
      rw [Option.some.injEq]
      ring
    constructor
    · have hbw1 : d1 - p0.1 + 1 < ws.length := by omega
      have hlen2 : g.length = ws.length := by omega
      have hzl := lookup_zip_getElem g ws (d1 - p0.1 + 1) hgsort hlen2 hb1 hbw1
      rw [hkey _ hb1, harith1] at hzl
      have hws : ws[d1 - p0.1 + 1] = interpValue vals (d1 - p0.1 + 1) := by
        have hbx : d1 - p0.1 + 1 < (interpolate_linear vals).length := by
          rw [← hwdef]
          exact hbw1
        exact interpolate_linear_getElem _ _ hbx
      rw [hws, hmidval] at hzl
      exact hzl
    · intro d
      constructor
      · rintro ⟨w, hw⟩
        have hdg : d ∈ g := by
          have hmm : d ∈ (g.zip ws).map Prod.fst := List.mem_map_of_mem Prod.fst hw
          rw [List.map_fst_zip g ws (by omega)] at hmm
          exact hmm
        rw [hgdef, mem_daily_grid] at hdg
        obtain ⟨hld, hrd⟩ := hdg
        constructor
        · exact ⟨p0, List.mem_cons_self p0 rest, hld⟩
        · have hlmem : lastD (p0.1 :: rest.map Prod.fst) ∈ p0.1 :: rest.map Prod.fst :=
            lastD_mem _ (by simp)
          rw [← List.map_cons] at hlmem
          rcases List.mem_map.mp hlmem with ⟨q, hq, hqd⟩
          refine ⟨q, hq, ?_⟩
          rw [hqd]
          exact hrd
      · rintro ⟨⟨qa, hqa, hqa2⟩, ⟨qb, hqb, hqb2⟩⟩
        have hqaD : qa.1 ∈ p0.1 :: rest.map Prod.fst := by
          rw [← List.map_cons]
          exact List.mem_map.mpr ⟨qa, hqa, rfl⟩
        have hqbD : qb.1 ∈ p0.1 :: rest.map Prod.fst := by
          rw [← List.map_cons]
          exact List.mem_map.mpr ⟨qb, hqb, rfl⟩
        have h1d : p0.1 ≤ d := le_trans (head_le_of_mem _ _ hpairD _ hqaD) hqa2
        have h2d : d ≤ lastD (p0.1 :: rest.map Prod.fst) :=
          le_trans hqb2 (le_lastD_of_mem _ hpairD _ hqbD)
        have hdg : d ∈ g := by
          rw [hgdef, mem_daily_grid]
          exact ⟨h1d, h2d⟩
        rcases List.mem_iff_getElem.mp hdg with ⟨i, hig, hieq⟩
        have hiw : i < ws.length := by omega
        have hiz : i < (g.zip ws).length := by
          rw [List.length_zip]
          omega
        refine ⟨ws[i], List.mem_iff_getElem.mpr ⟨i, hiz, ?_⟩⟩
        rw [List.getElem_zip, hieq]

/-- C5 witness: the concrete series with known points `(10, 1)` and
`(12, 3)` interpolates to `(1 + 3) / 2` on day `11`. -/
theorem resample_daily_midpoint_witness :
    (_resample_daily [(10, 1), (12, 3)]).lookup 11 = some (some ((1 + 3) / 2)) :=
  (resample_daily_midpoint [(10, 1), (12, 3)] 10 12 1 3
    (by simp) (by simp) (by simp) rfl (by decide)).1
